import Mathlib

/-!
Verification of the `meta_fastrack` planning core against its specification.

The development shallowly embeds the two planners of the repository:
`TimeVaryingAStar` (src/ros/src/meta_planner/src/time_varying_a_star.cpp) and
`TimeVaryingRrt` (src/ros/src/meta_planner/src/time_varying_rrt.cpp).

Modelling conventions:
* C++ `double` values (positions, times, costs, probabilities) are modelled as
  rationals `ℚ` with exact arithmetic.
* External collaborators (the validity/probability oracle `space_`, the
  dynamics-provided `BestPossibleTime` and `LiftGeometricTrajectory`, the Eigen
  vector norm and `isApprox` predicate, the wall clock, the RRT spatial index
  and sampler) are fields of a planner record, exactly at the interface the
  source consults them.
* The wall clock is a function from loop-iteration index to elapsed seconds;
  the source polls `(ros::Time::now() - plan_start_time).toSec()` once per
  loop iteration.
* The unbounded `while (true)` loop is given an explicit fuel parameter; a
  distinguished `fuelOut` outcome marks fuel exhaustion, so every theorem about
  a completed run quantifies over fuel.
* In-out reference parameters (`double& max_collision_prob`) are modelled by
  returning the written value alongside the ordinary return value.
* The `Node` class lives in a header that is not part of the sources at hand;
  its pieces are modelled from the spec where they are needed (see the doc
  comments on `Node.Create`, `extractMin`, `findByPosition`).
-/

namespace MetaFastrack

/-- A 3D point, modelling `Vector3d`. -/
@[ext]
structure Point where
  x : ℚ
  y : ℚ
  z : ℚ
deriving DecidableEq, Repr

namespace Point

instance : Zero Point := ⟨⟨0, 0, 0⟩⟩

instance : Add Point := ⟨fun a b => ⟨a.x + b.x, a.y + b.y, a.z + b.z⟩⟩

instance : Sub Point := ⟨fun a b => ⟨a.x - b.x, a.y - b.y, a.z - b.z⟩⟩

instance : SMul ℚ Point := ⟨fun c a => ⟨c * a.x, c * a.y, c * a.z⟩⟩

end Point

/-- Value-function identifiers are opaque tokens; the core never inspects
them. -/
abbrev ValueFunctionId := ℕ

/-- A search node of the time-varying A*.  The source `Node` class (shared
pointer to point, parent pointer, arrival time, cost-to-come, heuristic and
collision probability) is declared in a header outside the given sources;
its data content is modelled from the spec data model: position, optional
parent (a root has none), `arrival_time`, `cost_to_come`, `heuristic`, and
`collision_probability`.  The parent pointer is embedded structurally, so a
node carries its whole parent chain. -/
inductive Node where
  | root (point : Point) (time cost_to_come heuristic collision_prob : ℚ)
  | child (point : Point) (parent : Node)
      (time cost_to_come heuristic collision_prob : ℚ)
deriving DecidableEq, Repr

namespace Node

/-- The node position (`point_`). -/
def point : Node → Point
  | .root p _ _ _ _ => p
  | .child p _ _ _ _ _ => p

/-- The node parent (`parent_`); `none` models a null parent pointer. -/
def parent : Node → Option Node
  | .root _ _ _ _ _ => none
  | .child _ par _ _ _ _ => some par

/-- The node arrival time (`time_`). -/
def time : Node → ℚ
  | .root _ t _ _ _ => t
  | .child _ _ t _ _ _ => t

/-- The accumulated cost (`cost_to_come_`). -/
def cost_to_come : Node → ℚ
  | .root _ _ c _ _ => c
  | .child _ _ _ c _ _ => c

/-- The heuristic value (`heuristic_`). -/
def heuristic : Node → ℚ
  | .root _ _ _ h _ => h
  | .child _ _ _ _ h _ => h

/-- The collision probability field (`collision_prob_`). -/
def collision_prob : Node → ℚ
  | .root _ _ _ _ pr => pr
  | .child _ _ _ _ _ pr => pr

/-- Modelled from the spec: the open-list `priority` is
`cost_to_come + heuristic` (the `priority_` member is set in the `Node`
header, which is not among the given sources). -/
def priority (n : Node) : ℚ := n.cost_to_come + n.heuristic

/-- Modelled from the spec: `Node::Create(point, parent, time, cost,
heuristic)` (the constructor body is in the missing header).  The spec fixes
every field the constructor receives; the collision-probability field, which
the constructor does not receive, starts at zero — the running maximum over
an empty set of samples — and is subsequently written through the in-out
reference passed to `CollisionCheck`. -/
def Create (point : Point) (parent : Option Node)
    (time cost_to_come heuristic : ℚ) : Node :=
  match parent with
  | none => .root point time cost_to_come heuristic 0
  | some par => .child point par time cost_to_come heuristic 0

/-- Overwrite the `collision_prob_` field, modelling the write performed
through the `double&` reference handed to `CollisionCheck`. -/
def setCollisionProb : Node → ℚ → Node
  | .root p t c h _, pr => .root p t c h pr
  | .child p par t c h _, pr => .child p par t c h pr

end Node

/-- The time-varying A* planner together with its external collaborators.
`σ` is the type of lifted dynamical states produced by the external dynamics
model. -/
structure AStarPlanner (σ : Type) where
  incoming_value : ValueFunctionId
  outgoing_value : ValueFunctionId
  /-- The probabilistic environment oracle
  `space_->IsValid(position, incoming, outgoing, collision_prob&, time)`:
  returns the validity bit and writes the instantaneous collision
  probability through the reference (modelled as the second component). -/
  isValid : Point → ValueFunctionId → ValueFunctionId → ℚ → Bool × ℚ
  /-- Dynamics-provided `BestPossibleTime(from, to)`. -/
  bestTime : Point → Point → ℚ
  /-- Dynamics-provided `LiftGeometricTrajectory(positions, times)`. -/
  lift : List Point → List ℚ → List σ
  /-- Eigen `(a - b).norm()`, consumed as `vnorm (a - b)`. -/
  vnorm : Point → ℚ
  /-- Eigen `a.isApprox(b, 1e-8)`. -/
  isApprox : Point → Point → Bool
  grid_resolution : ℚ
  collision_check_resolution : ℚ

variable {σ : Type}

/-- Returns the total cost to get to `point` from `parent`
(`TimeVaryingAStar::ComputeCostToCome`).  The source guards a null parent
with an error return of `+infinity`; every call site in `Plan` passes a
non-null parent, so the embedding takes the parent directly.  The source
re-derives `dt` when it is negative and then only adds the parent cost and
the Euclidean distance — the `+ dt` term is commented out. -/
def ComputeCostToCome (P : AStarPlanner σ) (parent : Node) (point : Point)
    (dt : ℚ) : ℚ :=
  let _dt := if dt < 0 then P.bestTime parent.point point else dt
  parent.cost_to_come + P.vnorm (parent.point - point)

/-- Returns the heuristic for the point
(`TimeVaryingAStar::ComputeHeuristic`): the best possible time to the goal
(the distance term is commented out in the source). -/
def ComputeHeuristic (P : AStarPlanner σ) (point stop : Point) : ℚ :=
  P.bestTime point stop

/-- Result of `TimeVaryingAStar::CollisionCheck`: the boolean return value,
the final value of the in-out `max_collision_prob` reference, and the list of
`(position, time)` pairs at which the oracle was actually queried (in query
order). -/
structure CCResult where
  free : Bool
  maxProb : ℚ
  queries : List (Point × ℚ)
deriving DecidableEq, Repr

/-- One step of `CollisionCheck`'s sampling loop
(`for (double time = start_time; time < stop_time; time += dt)`), with the
iteration count made explicit as fuel.  Each iteration queries the oracle at
the current `query` position and `time`, folds the returned probability into
the running maximum (`if (collision_prob > max_collision_prob) ...`), and
either returns `false` at an invalid sample or advances `query` by
`collision_check_resolution * direction` and `time` by `dt`. -/
def collisionWalk (P : AStarPlanner σ) (step : Point) (dt : ℚ) :
    ℕ → ℚ → Point → ℚ → CCResult
  | 0, _, _, maxp => ⟨true, maxp, []⟩
  | fuel + 1, time, query, maxp =>
    let r := P.isValid query P.incoming_value P.outgoing_value time
    let maxp' := if r.2 > maxp then r.2 else maxp
    if r.1 then
      let rest := collisionWalk P step dt fuel (time + dt) (query + step) maxp'
      ⟨rest.free, rest.maxProb, (query, time) :: rest.queries⟩
    else ⟨false, maxp', [(query, time)]⟩

/-- Whether `CollisionCheck` treats the segment as a "wait in place" edge:
`start.isApprox(stop, 1e-8)`. -/
def ccSamePt (P : AStarPlanner σ) (start stop : Point) : Bool :=
  P.isApprox start stop

/-- The time step between query points in `CollisionCheck`. -/
def ccDt (P : AStarPlanner σ) (start stop : Point) (start_time stop_time : ℚ) : ℚ :=
  if ccSamePt P start stop then (stop_time - start_time) * (1 / 10)
  else (stop_time - start_time) * P.collision_check_resolution /
    P.vnorm (stop - start)

/-- The spatial step taken between query points in `CollisionCheck`:
`collision_check_resolution * direction`, where `direction` is the zero
vector for a "wait in place" edge and the unit vector from `start` to `stop`
otherwise. -/
def ccStep (P : AStarPlanner σ) (start stop : Point) : Point :=
  if ccSamePt P start stop then P.collision_check_resolution • (0 : Point)
  else P.collision_check_resolution •
    ((1 / P.vnorm (stop - start)) • (stop - start))

/-- The number of iterations of the loop
`for (time = start_time; time < stop_time; time += dt)` over exact
arithmetic: zero when the step is not positive (the loop condition fails
immediately whenever `stop_time ≤ start_time`, and `Plan` only produces
positive steps otherwise), else `⌈(stop_time - start_time) / dt⌉`. -/
def ccNumSteps (start_time stop_time dt : ℚ) : ℕ :=
  if 0 < dt then ⌈(stop_time - start_time) / dt⌉₊ else 0

/-- Collision check a line segment between two points with the given start
and stop times (`TimeVaryingAStar::CollisionCheck`).  `maxp0` is the value
held by the caller's `max_collision_prob` reference on entry. -/
def CollisionCheck (P : AStarPlanner σ) (start stop : Point)
    (start_time stop_time : ℚ) (maxp0 : ℚ) : CCResult :=
  let dt := ccDt P start stop start_time stop_time
  collisionWalk P (ccStep P start stop) dt
    (ccNumSteps start_time stop_time dt) start_time start maxp0

/-- The `(position, time)` samples that the loop of `CollisionCheck` walks
through when no sample is invalid: starting from `(query, time)` and
advancing by `(step, dt)` for the given number of iterations. -/
def walkSamples (step : Point) (dt : ℚ) : ℕ → ℚ → Point → List (Point × ℚ)
  | 0, _, _ => []
  | fuel + 1, time, query => (query, time) :: walkSamples step dt fuel (time + dt) (query + step)

/-- The full sample list of a `CollisionCheck` call. -/
def CollisionSamples (P : AStarPlanner σ) (start stop : Point)
    (start_time stop_time : ℚ) : List (Point × ℚ) :=
  let dt := ccDt P start stop start_time stop_time
  walkSamples (ccStep P start stop) dt
    (ccNumSteps start_time stop_time dt) start_time start

/-- Index of the first element of a list failing a test, if any: the
position of the first collision-check sample the oracle reports invalid. -/
def firstFail (p : α → Bool) : List α → Option ℕ
  | [] => none
  | a :: l => if p a then some 0 else (firstFail p l).map Nat.succ

/-- A trajectory as assembled by
`Trajectory::Create(times, states, values, values)`: time stamps, lifted
states, and the incoming/outgoing value-function identifier lists. -/
structure Traj (σ : Type) where
  times : List ℚ
  states : List σ
  values_in : List ValueFunctionId
  values_out : List ValueFunctionId

/-- The backward walk of `GenerateTrajectory`:
`for (Node::ConstPtr n = node; n != nullptr; n = n->parent_)`. -/
def Node.backWalk : Node → List Node
  | .root p t c h pr => [.root p t c h pr]
  | .child p par t c h pr => .child p par t c h pr :: par.backWalk

/-- Walk backward from the given node to the root to create a trajectory
(`TimeVaryingAStar::GenerateTrajectory`): collect positions and times along
the parent chain, reverse both, lift the geometric trajectory through the
dynamics model, and tag every state with the incoming value function on both
sides. -/
def GenerateTrajectory (P : AStarPlanner σ) (node : Node) : Traj σ :=
  let positions := (node.backWalk.map Node.point).reverse
  let times := (node.backWalk.map Node.time).reverse
  let states := P.lift positions times
  let values := List.replicate states.length P.incoming_value
  ⟨times, states, values, values⟩

/-- The tolerance `1e-8` appearing in the neighbor-generation loop bounds. -/
def gridEps : ℚ := 1 / 100000000

/-- Number of iterations of one axis loop of `Neighbors`
(`for (x = p - r; x < p + r + 1e-8; x += r)`) over exact arithmetic: zero
when the resolution is not positive, else `⌈(2r + 1e-8) / r⌉` (which is `3`
for any resolution of at least `1e-8`). -/
def axisCount (r : ℚ) : ℕ :=
  if 0 < r then ⌈(2 * r + gridEps) / r⌉₊ else 0

/-- The coordinate values visited by one axis loop of `Neighbors`. -/
def axisVals (c r : ℚ) : List ℚ :=
  (List.range (axisCount r)).map fun k => c - r + k * r

/-- Get the neighbors of the given point on the implicit grid, including the
point itself (`TimeVaryingAStar::Neighbors`): all combinations of offsets in
`{-r, 0, +r}` on each axis, as produced by the three nested loops. -/
def Neighbors (P : AStarPlanner σ) (point : Point) : List Point :=
  (axisVals point.x P.grid_resolution).flatMap fun x =>
    (axisVals point.y P.grid_resolution).flatMap fun y =>
      (axisVals point.z P.grid_resolution).map fun z => (⟨x, y, z⟩ : Point)

/-- The goal test of `Plan`: the popped node position is within half a grid
cell of `stop` on every axis. -/
def goalReached (P : AStarPlanner σ) (point stop : Point) : Prop :=
  |point.x - stop.x| < P.grid_resolution / 2 ∧
  |point.y - stop.y| < P.grid_resolution / 2 ∧
  |point.z - stop.z| < P.grid_resolution / 2

instance (P : AStarPlanner σ) (point stop : Point) :
    Decidable (goalReached P point stop) := by
  unfold goalReached; infer_instance

/-- `const double kStayPutTime = 1.0;` -/
def kStayPutTime : ℚ := 1

/-- The state threaded through the `Plan` loop: the open multiset, the
closed list, plus two observables — the log of oracle queries made so far
and the loop-iteration counter used to index the wall clock. -/
structure SearchState where
  openList : List Node
  closed : List Point
  queryLog : List (Point × ℚ)
  iter : ℕ
deriving Repr

/-- Pop the minimum-priority element of the open multiset
(`*open.begin()` followed by `open.erase(open.begin())`).  Modelled from the
spec: the multiset is ordered by `priority` with an implementation-defined
total tie-break; here ties go to the earliest-inserted element (the open
list is kept in insertion order and insertion appends). -/
def extractMin : List Node → Option (Node × List Node)
  | [] => none
  | a :: rest =>
    match extractMin rest with
    | none => some (a, [])
    | some (b, rest') =>
      if b.priority < a.priority then some (b, a :: rest')
      else some (a, rest)

/-- `open.find(neighbor_node)`: look for a node equivalent to the candidate
in the open multiset.  Modelled from the spec: equivalence of open nodes is
"same grid position" (the `Node` comparator and hasher live in the missing
header); the first such element in insertion order is returned. -/
def findByPosition (openList : List Node) (cand : Node) : Option Node :=
  openList.find? fun m => m.point = cand.point

/-- The open-set update applied to a collision-free, unclosed candidate:
if an equivalent node is open, erase and re-insert exactly when the
candidate priority is strictly lower (`neighbor_node->priority_ <
(*match)->priority_`); otherwise insert the candidate. -/
def updateOpen (openList : List Node) (cand : Node) : List Node :=
  match findByPosition openList cand with
  | some m =>
    if cand.priority < m.priority then openList.erase m ++ [cand]
    else openList
  | none => openList ++ [cand]

/-- The time in which a popped node's neighbor can be reached: the fixed
stay-put duration when the neighbor is (approximately) the popped point
itself, otherwise the dynamics' best possible time. -/
def bestNeighTime (P : AStarPlanner σ) (next : Node) (neighbor : Point) : ℚ :=
  if P.isApprox neighbor next.point then kStayPutTime
  else P.bestTime next.point neighbor

/-- The candidate node built for a neighbor during expansion
(`Node::Create(neighbor, next, neighbor_time, neighbor_cost,
neighbor_heuristic)`). -/
def candidateNode (P : AStarPlanner σ) (stop : Point) (next : Node)
    (neighbor : Point) : Node :=
  Node.Create neighbor (some next) (next.time + bestNeighTime P next neighbor)
    (ComputeCostToCome P next neighbor (bestNeighTime P next neighbor))
    (ComputeHeuristic P neighbor stop)

/-- The collision check run over the edge to a neighbor during expansion;
the candidate's `collision_prob_` field is the in-out initial value. -/
def candidateCheck (P : AStarPlanner σ) (stop : Point) (next : Node)
    (neighbor : Point) : CCResult :=
  CollisionCheck P next.point neighbor next.time
    (next.time + bestNeighTime P next neighbor)
    (candidateNode P stop next neighbor).collision_prob

/-- Process one neighbor inside the expansion loop of `Plan`: compute the
best-possible traversal time, arrival time, cost-to-come and heuristic;
create the candidate node; skip it when its grid position is closed (the
closed set identity is the grid position, per the spec's spatial hashing);
otherwise collision check the edge — writing the running maximum
probability into the candidate's collision-probability field through the
in-out reference — and drop the candidate when the edge is blocked, or
hand it to the open-set update when it is free. -/
def expandOne (P : AStarPlanner σ) (stop : Point) (next : Node)
    (s : SearchState) (neighbor : Point) : SearchState :=
  if (candidateNode P stop next neighbor).point ∈ s.closed then s
  else if (candidateCheck P stop next neighbor).free then
    { s with
      queryLog := s.queryLog ++ (candidateCheck P stop next neighbor).queries,
      openList := updateOpen s.openList
        ((candidateNode P stop next neighbor).setCollisionProb
          (candidateCheck P stop next neighbor).maxProb) }
  else { s with queryLog := s.queryLog ++ (candidateCheck P stop next neighbor).queries }

/-- The whole expansion of a popped node: fold `expandOne` over its grid
neighbors. -/
def expand (P : AStarPlanner σ) (stop : Point) (next : Node)
    (s : SearchState) : SearchState :=
  (Neighbors P next.point).foldl (expandOne P stop next) s

/-- Outcome of the `Plan` loop.  `timedOut` is the budget return,
`exhausted` the empty-open-list return, `found` the goal return; `fuelOut`
is the embedding's marker that the supplied fuel ran out mid-loop. -/
inductive PlanOutcome (σ : Type) where
  | timedOut
  | exhausted
  | found (t : Traj σ)
  | fuelOut

/-- The main loop of `TimeVaryingAStar::Plan`: check the wall-clock budget,
pop the minimum-priority open node, return the reconstructed trajectory
through a synthesized terminus when the popped node is within half a grid
cell of `stop` on every axis (parenting the terminus to the popped node's
parent when it exists, otherwise to the popped node itself), and otherwise
close and expand the popped node.  Returns the outcome together with the
final search state. -/
def PlanAux (P : AStarPlanner σ) (stop : Point) (clock : ℕ → ℚ)
    (budget : ℚ) : ℕ → SearchState → PlanOutcome σ × SearchState
  | 0, s => (.fuelOut, s)
  | fuel + 1, s =>
    if budget < clock s.iter then (.timedOut, s)
    else
      match extractMin s.openList with
      | none => (.exhausted, s)
      | some (next, rest) =>
        if goalReached P next.point stop then
          let parent_node := next.parent.getD next
          let best_time := P.bestTime parent_node.point stop
          let terminus_time := parent_node.time + best_time
          let terminus_cost := ComputeCostToCome P parent_node stop best_time
          let terminus :=
            Node.Create stop (some parent_node) terminus_time terminus_cost 0
          (.found (GenerateTrajectory P terminus), { s with openList := rest })
        else
          let s' := expand P stop next
            { s with openList := rest, closed := s.closed ++ [next.point] }
          PlanAux P stop clock budget fuel { s' with iter := s'.iter + 1 }

/-- The search state on entry to the loop: the root node at `start` with
zero cost and heuristic `ComputeHeuristic(start, stop)` is the only open
node; nothing is closed, no oracle query has been made. -/
def initState (P : AStarPlanner σ) (start stop : Point)
    (start_time : ℚ) : SearchState :=
  ⟨[Node.Create start none start_time 0 (ComputeHeuristic P start stop)],
    [], [], 0⟩

/-- `TimeVaryingAStar::Plan(start, stop, start_time, budget)`: run the loop
from the initial state; a found trajectory is returned, and both the budget
and exhaustion returns are the null "no trajectory" result. -/
def Plan (P : AStarPlanner σ) (start stop : Point) (start_time budget : ℚ)
    (clock : ℕ → ℚ) (fuel : ℕ) : Option (Traj σ) :=
  match (PlanAux P stop clock budget fuel (initState P start stop start_time)).1 with
  | .found t => some t
  | _ => none

/-- A search-tree node of the time-varying RRT.  The RRT `Node::Create`
takes only a position, an optional parent, and an arrival time. -/
inductive RNode where
  | root (point : Point) (time : ℚ)
  | child (point : Point) (parent : RNode) (time : ℚ)
deriving DecidableEq, Repr

namespace RNode

/-- The node position (`point_`). -/
def point : RNode → Point
  | .root p _ => p
  | .child p _ _ => p

/-- The node arrival time (`time_`). -/
def time : RNode → ℚ
  | .root _ t => t
  | .child _ _ t => t

end RNode

/-- The time-varying RRT planner together with its external collaborators. -/
structure RrtPlanner where
  incoming_value : ValueFunctionId
  outgoing_value : ValueFunctionId
  /-- The `Box` environment check
  `space_->IsValid(position, incoming, outgoing)` — no time argument. -/
  isValid : Point → ValueFunctionId → ValueFunctionId → Bool
  /-- The environment sampler `space_->Sample()`, modelled as a stream of
  points indexed by the loop iteration that draws them. -/
  sample : ℕ → Point
  /-- The spatial index query `kdtree_.KnnSearch(point, k)` over the nodes
  inserted so far (nearest first, per the interface contract). -/
  knnSearch : List RNode → Point → ℕ → List RNode
  /-- Dynamics-provided `BestPossibleTime(from, to)`. -/
  bestTime : Point → Point → ℚ

/-- `TimeVaryingRrt::CollisionCheck`: the body is a stub that always rejects
(`return false`).  Note the source declares three parameters while both call
sites in `Plan` pass a fourth (the edge stop time); the definition is the
authority here. -/
def RrtCollisionCheck (start stop : Point) (start_time : ℚ) : Bool :=
  false

/-- The sampling loop of `TimeVaryingRrt::Plan`
(`while ((ros::Time::now() - begin).toSec() < budget)`), with explicit fuel:
sample a point, find its nearest tree neighbor, compute the arrival time,
and attempt a collision-checked connection; on success insert the sample
node and attempt to connect it to the goal (the loop never stores or
returns a terminus — the `TODO` in the source).  Returns the final tree and
iteration count when the budget check ends the loop; `none` when the fuel
runs out first, or on an empty nearest-neighbor result (the source indexes
`neighbors[0]` unconditionally, which is undefined there). -/
def RrtPlanLoop (P : RrtPlanner) (stop : Point) (clock : ℕ → ℚ)
    (budget : ℚ) : ℕ → List RNode → ℕ → Option (List RNode × ℕ)
  | 0, _, _ => none
  | fuel + 1, tree, iter =>
    if clock iter < budget then
      let samp := P.sample iter
      match (P.knnSearch tree samp 1).head? with
      | none => none
      | some nb =>
        let sample_time := nb.time + P.bestTime nb.point samp
        if RrtCollisionCheck nb.point samp nb.time then
          let sample_node := RNode.child samp nb sample_time
          let tree' := tree ++ [sample_node]
          let stop_time := sample_time + P.bestTime samp stop
          if RrtCollisionCheck samp stop sample_time then
            RrtPlanLoop P stop clock budget fuel tree' (iter + 1)
          else
            RrtPlanLoop P stop clock budget fuel tree' (iter + 1)
        else
          RrtPlanLoop P stop clock budget fuel tree (iter + 1)
    else some (tree, iter)

/-- `TimeVaryingRrt::Plan(start, stop, start_time, budget)`: reject an
invalid `start` or `stop` immediately (before rooting the tree or drawing
any sample); otherwise root the tree at `start` and run the sampling loop,
then return the null "no trajectory" result (the source's final
`return nullptr`).  The embedding returns, besides the trajectory option,
the final tree contents and the number of loop iterations (samples drawn);
the outer `none` marks fuel exhaustion. -/
def RrtPlan (P : RrtPlanner) (start stop : Point) (start_time : ℚ)
    (clock : ℕ → ℚ) (budget : ℚ) (fuel : ℕ) :
    Option (Option (Traj σ) × List RNode × ℕ) :=
  if !P.isValid start P.incoming_value P.outgoing_value then some (none, [], 0)
  else if !P.isValid stop P.incoming_value P.outgoing_value then some (none, [], 0)
  else
    let root := RNode.root start start_time
    match RrtPlanLoop P stop clock budget fuel [root] 0 with
    | none => none
    | some (tree, iters) => some (none, tree, iters)

/-- The validity bit the oracle reports for a collision-check sample. -/
def sampleValid (P : AStarPlanner σ) (s : Point × ℚ) : Bool :=
  (P.isValid s.1 P.incoming_value P.outgoing_value s.2).1

/-- The instantaneous collision probability the oracle reports for a
collision-check sample. -/
def sampleProb (P : AStarPlanner σ) (s : Point × ℚ) : ℚ :=
  (P.isValid s.1 P.incoming_value P.outgoing_value s.2).2

/-- The running maximum of a list of probabilities, accumulated into an
initial value. -/
def runningMax (m : ℚ) (l : List ℚ) : ℚ := l.foldl max m

/-- Arrival times never decrease along the parent chain: the spec's
monotonicity invariant for `arrival_time`. -/
def Node.wellTimed : Node → Prop
  | .root _ _ _ _ _ => True
  | .child _ par t _ _ _ => par.time ≤ t ∧ par.wellTimed

/-- A concrete A* planner instance used to exercise the theorems: a
benign oracle that always reports validity with probability `1/2`, unit
best-possible times, an identity lift, and unit resolutions. -/
def trivP : AStarPlanner Point where
  incoming_value := 7
  outgoing_value := 8
  isValid := fun _ _ _ _ => (true, 1 / 2)
  bestTime := fun _ _ => 1
  lift := fun ps _ => ps
  vnorm := fun _ => 1
  isApprox := fun a b => a = b
  grid_resolution := 1
  collision_check_resolution := 1

/-- A concrete RRT planner instance with valid endpoints everywhere. -/
def rrtP : RrtPlanner where
  incoming_value := 7
  outgoing_value := 8
  isValid := fun _ _ _ => true
  sample := fun _ => 0
  knnSearch := fun tree _ _ => tree
  bestTime := fun _ _ => 1

/-- A concrete RRT planner instance whose environment rejects every
point. -/
def rrtBad : RrtPlanner where
  incoming_value := 7
  outgoing_value := 8
  isValid := fun _ _ _ => false
  sample := fun _ => 0
  knnSearch := fun tree _ _ => tree
  bestTime := fun _ _ => 1

theorem ite_gt_eq_max (m p : ℚ) : (if p > m then p else m) = max m p := by
  rcases le_or_lt p m with h | h
  · rw [if_neg (not_lt.mpr h), max_eq_left h]
  · rw [if_pos h, max_eq_right h.le]

theorem runningMax_cons (m p : ℚ) (l : List ℚ) :
    runningMax m (p :: l) = runningMax (max m p) l := rfl

theorem collisionWalk_spec (P : AStarPlanner σ) (step : Point) (dt : ℚ)
    (fuel : ℕ) : ∀ (t : ℚ) (q : Point) (m : ℚ),
    collisionWalk P step dt fuel t q m =
      match firstFail (fun s => !sampleValid P s) (walkSamples step dt fuel t q) with
      | none =>
          ⟨true, runningMax m ((walkSamples step dt fuel t q).map (sampleProb P)),
            walkSamples step dt fuel t q⟩
      | some j =>
          ⟨false,
            runningMax m (((walkSamples step dt fuel t q).take (j + 1)).map (sampleProb P)),
            (walkSamples step dt fuel t q).take (j + 1)⟩ := by
  induction fuel with
  | zero => intro t q m; rfl
  | succ fuel ih =>
    intro t q m
    rcases hval : P.isValid q P.incoming_value P.outgoing_value t with ⟨valid, prob⟩
    have hsv : sampleValid P (q, t) = valid := by simp [sampleValid, hval]
    have hsp : sampleProb P (q, t) = prob := by simp [sampleProb, hval]
    cases valid with
    | true =>
      cases h2 : firstFail (fun s => !sampleValid P s)
          (walkSamples step dt fuel (t + dt) (q + step)) with
      | none =>
        simp [collisionWalk, walkSamples, firstFail, hval, hsv, hsp,
          ite_gt_eq_max, ih, h2, runningMax_cons]
      | some j =>
        simp [collisionWalk, walkSamples, firstFail, hval, hsv, hsp,
          ite_gt_eq_max, ih, h2, runningMax_cons]
    | false =>
      simp [collisionWalk, walkSamples, firstFail, hval, hsv, hsp,
        ite_gt_eq_max, runningMax_cons, runningMax]

/-- C1: a `CollisionCheck` call walks the sample list of the segment; if the
oracle reports some sample invalid, the check returns not-free at the first
such sample, with the in-out `max_collision_prob` reference holding the
running maximum of the instantaneous probabilities of every sample up to and
including the invalidating one (and exactly those samples queried); if every
sample is valid, it returns free with the running maximum over all
samples. -/
theorem claim_C1_collision_check (σ : Type) (P : AStarPlanner σ)
    (start stop : Point) (start_time stop_time maxp0 : ℚ) :
    CollisionCheck P start stop start_time stop_time maxp0 =
      match firstFail (fun s => !sampleValid P s)
          (CollisionSamples P start stop start_time stop_time) with
      | none =>
          ⟨true,
            runningMax maxp0
              ((CollisionSamples P start stop start_time stop_time).map (sampleProb P)),
            CollisionSamples P start stop start_time stop_time⟩
      | some j =>
          ⟨false,
            runningMax maxp0
              (((CollisionSamples P start stop start_time stop_time).take (j + 1)).map
                (sampleProb P)),
            (CollisionSamples P start stop start_time stop_time).take (j + 1)⟩ := by
  unfold CollisionCheck CollisionSamples
  exact collisionWalk_spec P _ _ _ _ _ _

theorem collisionWalk_queries_mem (P : AStarPlanner σ) (step : Point)
    (dt : ℚ) (fuel : ℕ) (t : ℚ) (q : Point) (m : ℚ) :
    ∀ x ∈ (collisionWalk P step dt fuel t q m).queries,
      x ∈ walkSamples step dt fuel t q := by
  rw [collisionWalk_spec]
  cases firstFail (fun s => !sampleValid P s) (walkSamples step dt fuel t q) with
  | none => exact fun x hx => hx
  | some j => exact fun x hx => List.take_subset _ _ hx

theorem walkSamples_time_mem (step : Point) (dt : ℚ) (fuel : ℕ) :
    ∀ (t : ℚ) (q : Point), ∀ x ∈ walkSamples step dt fuel t q,
      ∃ i : ℕ, i < fuel ∧ x.2 = t + i * dt := by
  induction fuel with
  | zero => intro t q x hx; simp [walkSamples] at hx
  | succ fuel ih =>
    intro t q x hx
    rcases List.mem_cons.mp hx with h | h
    · exact ⟨0, Nat.succ_pos _, by simp [h]⟩
    · rcases ih (t + dt) (q + step) x h with ⟨i, hi, hx2⟩
      refine ⟨i + 1, Nat.succ_lt_succ hi, ?_⟩
      push_cast [hx2]
      ring

/-- C10: every oracle query of a `CollisionCheck` call is made at a time
strictly before `stop_time` (the loop condition is checked before each
query), and whenever `stop_time ≤ start_time` the walk makes no query at
all, reporting the segment free with the in-out maximum left unchanged. -/
theorem claim_C10_query_times (σ : Type) (P : AStarPlanner σ)
    (start stop : Point) (start_time stop_time maxp0 : ℚ) :
    (∀ x ∈ (CollisionCheck P start stop start_time stop_time maxp0).queries,
      x.2 < stop_time) ∧
    (stop_time ≤ start_time →
      CollisionCheck P start stop start_time stop_time maxp0 = ⟨true, maxp0, []⟩) := by
  constructor
  · intro x hx
    have hmem : x ∈ walkSamples (ccStep P start stop)
        (ccDt P start stop start_time stop_time)
        (ccNumSteps start_time stop_time (ccDt P start stop start_time stop_time))
        start_time start :=
      collisionWalk_queries_mem P _ _ _ _ _ _ x hx
    rcases walkSamples_time_mem _ _ _ _ _ x hmem with ⟨i, hi, hx2⟩
    set dt := ccDt P start stop start_time stop_time with hdt
    by_cases hpos : 0 < dt
    · have hi2 : i < ⌈(stop_time - start_time) / dt⌉₊ := by
        simpa [ccNumSteps, if_pos hpos] using hi
      have hlt : (i : ℚ) < (stop_time - start_time) / dt := Nat.lt_ceil.mp hi2
      have := (lt_div_iff₀ hpos).mp hlt
      rw [hx2]
      linarith
    · simp [ccNumSteps, if_neg hpos, walkSamples] at hmem
  · intro hle
    have hzero : ccNumSteps start_time stop_time
        (ccDt P start stop start_time stop_time) = 0 := by
      unfold ccNumSteps
      split
      · next hpos =>
        rw [Nat.ceil_eq_zero]
        apply div_nonpos_of_nonpos_of_nonneg (sub_nonpos.mpr hle) hpos.le
      · rfl
    show collisionWalk P (ccStep P start stop) (ccDt P start stop start_time stop_time)
      (ccNumSteps start_time stop_time (ccDt P start stop start_time stop_time))
      start_time start maxp0 = ⟨true, maxp0, []⟩
    rw [hzero]
    rfl

theorem claim_C10_witness :
    (((0 : Point), (0 : ℚ)).2 < 1) ∧
    CollisionCheck trivP 0 ⟨1, 0, 0⟩ 5 3 0 = ⟨true, 0, []⟩ :=
  ⟨(claim_C10_query_times Point trivP 0 ⟨1, 0, 0⟩ 0 1 0).1 ((0 : Point), (0 : ℚ))
      (by with_unfolding_all decide),
    (claim_C10_query_times Point trivP 0 ⟨1, 0, 0⟩ 5 3 0).2 (by norm_num)⟩

/-- C3: for every non-null parent and candidate point, `ComputeCostToCome`
returns exactly the parent cost-to-come plus the Euclidean distance between
the parent position and the candidate, with no time term: the result does
not depend on the `dt` argument at all. -/
theorem claim_C3_cost_to_come (σ : Type) (P : AStarPlanner σ) (parent : Node)
    (point : Point) (dt dt2 : ℚ) :
    ComputeCostToCome P parent point dt =
      parent.cost_to_come + P.vnorm (parent.point - point) ∧
    ComputeCostToCome P parent point dt = ComputeCostToCome P parent point dt2 :=
  ⟨rfl, rfl⟩

theorem planAux_goal_step (P : AStarPlanner σ) (stop : Point) (clock : ℕ → ℚ)
    (budget : ℚ) (fuel : ℕ) (s : SearchState) (next : Node) (rest : List Node)
    (h1 : ¬ budget < clock s.iter)
    (h2 : extractMin s.openList = some (next, rest))
    (h3 : goalReached P next.point stop) :
    PlanAux P stop clock budget (fuel + 1) s =
      (.found (GenerateTrajectory P
          (Node.Create stop (some (next.parent.getD next))
            ((next.parent.getD next).time + P.bestTime (next.parent.getD next).point stop)
            (ComputeCostToCome P (next.parent.getD next) stop
              (P.bestTime (next.parent.getD next).point stop)) 0)),
        { s with openList := rest }) := by
  simp only [PlanAux]
  rw [if_neg h1, h2]
  simp only [if_pos h3]

/-- C2: whenever the popped minimum-priority node is within half a grid cell
of `stop` on every axis, `Plan` synthesizes a terminal node at exactly
`stop`, parented to the popped node's parent when that parent exists and to
the popped node itself otherwise, with arrival time equal to that parent's
time plus `BestPossibleTime(parent.position, stop)` and heuristic zero, and
returns the trajectory reconstructed through it; in particular, when `start`
is within half a grid cell of `stop` and the budget is not exceeded at the
first check, `Plan` returns a single-segment trajectory from `start_time` to
`start_time + BestPossibleTime(start, stop)`. -/
theorem claim_C2_goal_found (σ : Type) (P : AStarPlanner σ) :
    (∀ (stop : Point) (clock : ℕ → ℚ) (budget : ℚ) (fuel : ℕ) (s : SearchState)
        (next : Node) (rest : List Node),
      ¬ budget < clock s.iter →
      extractMin s.openList = some (next, rest) →
      goalReached P next.point stop →
      PlanAux P stop clock budget (fuel + 1) s =
        (.found (GenerateTrajectory P
            (Node.Create stop (some (next.parent.getD next))
              ((next.parent.getD next).time +
                P.bestTime (next.parent.getD next).point stop)
              (ComputeCostToCome P (next.parent.getD next) stop
                (P.bestTime (next.parent.getD next).point stop)) 0)),
          { s with openList := rest })) ∧
    (∀ (start stop : Point) (start_time budget : ℚ) (clock : ℕ → ℚ) (fuel : ℕ),
      goalReached P start stop →
      ¬ budget < clock 0 →
      ∃ t, Plan P start stop start_time budget clock (fuel + 1) = some t ∧
        t.times = [start_time, start_time + P.bestTime start stop] ∧
        t.states = P.lift [start, stop] t.times) := by
  refine ⟨fun stop clock budget fuel s next rest h1 h2 h3 =>
    planAux_goal_step P stop clock budget fuel s next rest h1 h2 h3, ?_⟩
  intro start stop start_time budget clock fuel hg hb
  have h := planAux_goal_step P stop clock budget fuel
    (initState P start stop start_time)
    (Node.Create start none start_time 0 (ComputeHeuristic P start stop)) []
    hb rfl hg
  exact ⟨_, by unfold Plan; rw [h], rfl, rfl⟩

theorem claim_C2_witness :
    (PlanAux trivP 0 (fun _ => 0) 1 1 (initState trivP 0 0 0)).2.openList = [] ∧
    ∃ t, Plan trivP 0 0 5 1 (fun _ => 0) 1 = some t ∧
      t.times = [5, 5 + trivP.bestTime 0 0] ∧
      t.states = trivP.lift [0, 0] t.times := by
  constructor
  · rw [(claim_C2_goal_found Point trivP).1 0 (fun _ => 0) 1 0 (initState trivP 0 0 0)
      (Node.Create 0 none 0 0 (ComputeHeuristic trivP 0 0)) []
      (by with_unfolding_all decide) rfl (by with_unfolding_all decide)]
  · exact (claim_C2_goal_found Point trivP).2 0 0 5 1 (fun _ => 0) 0
      (by with_unfolding_all decide) (by with_unfolding_all decide)

/-- C6 (amended): `Plan` with a budget of `0` returns the no-trajectory
result at the first loop budget check — leaving the search state exactly as
initialized: the root is the only open node, nothing closed, no oracle
query — provided the elapsed time the clock reports at that first check is
strictly positive; the budget comparison `elapsed > budget` is strict, so a
clock reading of exactly zero elapsed does not trigger the timeout. -/
theorem claim_C6_budget_zero (σ : Type) (P : AStarPlanner σ)
    (start stop : Point) (start_time : ℚ) (clock : ℕ → ℚ) (fuel : ℕ)
    (h : 0 < clock 0) :
    PlanAux P stop clock 0 (fuel + 1) (initState P start stop start_time) =
      (.timedOut, initState P start stop start_time) ∧
    Plan P start stop start_time 0 clock (fuel + 1) = none := by
  have h0 : (0 : ℚ) < clock (initState P start stop start_time).iter := h
  constructor
  · simp only [PlanAux]
    rw [if_pos h0]
  · unfold Plan
    simp only [PlanAux]
    rw [if_pos h0]

theorem claim_C6_witness :
    PlanAux trivP ⟨2, 0, 0⟩ (fun _ => 1) 0 1 (initState trivP 0 ⟨2, 0, 0⟩ 3) =
      (.timedOut, initState trivP 0 ⟨2, 0, 0⟩ 3) ∧
    Plan trivP 0 ⟨2, 0, 0⟩ 3 0 (fun _ => 1) 1 = none :=
  claim_C6_budget_zero Point trivP 0 ⟨2, 0, 0⟩ 3 (fun _ => 1) 0 (by norm_num)

theorem claim_C6_counterexample :
    (Plan trivP 0 0 0 0 (fun _ => 0) 1).isSome = true := by
  with_unfolding_all decide

theorem mem_updateOpen (openList : List Node) (cand n : Node)
    (h : n ∈ updateOpen openList cand) : n ∈ openList ∨ n = cand := by
  unfold updateOpen at h
  cases hf : findByPosition openList cand with
  | none =>
    rw [hf] at h
    rcases List.mem_append.mp h with h | h
    · exact Or.inl h
    · right; simpa using h
  | some m =>
    rw [hf] at h
    have h2 : n ∈ (if cand.priority < m.priority then
        openList.erase m ++ [cand] else openList) := h
    by_cases hp : cand.priority < m.priority
    · rw [if_pos hp] at h2
      rcases List.mem_append.mp h2 with h3 | h3
      · exact Or.inl (List.mem_of_mem_erase h3)
      · right; simpa using h3
    · rw [if_neg hp] at h2
      exact Or.inl h2

theorem expandOne_open_mem (P : AStarPlanner σ) (stop : Point) (next : Node)
    (s : SearchState) (neighbor : Point) :
    ∀ n ∈ (expandOne P stop next s neighbor).openList,
      n ∈ s.openList ∨
      n = (candidateNode P stop next neighbor).setCollisionProb
        (candidateCheck P stop next neighbor).maxProb := by
  intro n hn
  unfold expandOne at hn
  by_cases hc : (candidateNode P stop next neighbor).point ∈ s.closed
  · rw [if_pos hc] at hn
    exact Or.inl hn
  · rw [if_neg hc] at hn
    by_cases hf : (candidateCheck P stop next neighbor).free = true
    · rw [if_pos hf] at hn
      exact mem_updateOpen _ _ _ hn
    · rw [if_neg hf] at hn
      exact Or.inl hn

/-- C4 (amended): a node's position, parent, `arrival_time`, `cost_to_come`
and `heuristic` are fixed by `Node::Create` and never change; the
collision-probability field starts at zero at creation and is written once,
through the reference handed to `CollisionCheck`, between creation and the
open-set insertion — so an expansion step adds to the open set exactly the
created candidate with only its collision probability overwritten, and
every other open node is carried over unchanged; a better alternative to
reach the same grid cell is represented by inserting a new node. -/
theorem claim_C4_field_immutability (σ : Type) (P : AStarPlanner σ) :
    (∀ (point : Point) (par : Option Node) (t c h : ℚ),
      (Node.Create point par t c h).point = point ∧
      (Node.Create point par t c h).parent = par ∧
      (Node.Create point par t c h).time = t ∧
      (Node.Create point par t c h).cost_to_come = c ∧
      (Node.Create point par t c h).heuristic = h ∧
      (Node.Create point par t c h).collision_prob = 0) ∧
    (∀ (n : Node) (p : ℚ),
      (n.setCollisionProb p).point = n.point ∧
      (n.setCollisionProb p).parent = n.parent ∧
      (n.setCollisionProb p).time = n.time ∧
      (n.setCollisionProb p).cost_to_come = n.cost_to_come ∧
      (n.setCollisionProb p).heuristic = n.heuristic ∧
      (n.setCollisionProb p).collision_prob = p) ∧
    (∀ (stop : Point) (next : Node) (s : SearchState) (neighbor : Point),
      ∀ n ∈ (expandOne P stop next s neighbor).openList,
        n ∈ s.openList ∨
        n = (candidateNode P stop next neighbor).setCollisionProb
          (candidateCheck P stop next neighbor).maxProb) ∧
    (∀ (openList : List Node) (cand : Node),
      ∀ n ∈ updateOpen openList cand, n ∈ openList ∨ n = cand) := by
  refine ⟨?_, ?_, fun stop next s neighbor => expandOne_open_mem P stop next s neighbor,
    fun openList cand n hn => mem_updateOpen openList cand n hn⟩
  · intro point par t c h
    cases par <;> exact ⟨rfl, rfl, rfl, rfl, rfl, rfl⟩
  · intro n p
    cases n <;> exact ⟨rfl, rfl, rfl, rfl, rfl, rfl⟩

theorem claim_C4_witness :
    ((Node.Create 0 none 1 2 3).time = 1 ∧ (Node.Create 0 none 1 2 3).collision_prob = 0) ∧
    (Node.root 0 1 2 3 0 ∈ updateOpen [] (Node.root 0 1 2 3 0) →
      Node.root 0 1 2 3 0 ∈ ([] : List Node) ∨ Node.root 0 1 2 3 0 = Node.root 0 1 2 3 0) := by
  constructor
  · exact ⟨((claim_C4_field_immutability Point trivP).1 0 none 1 2 3).2.2.1,
      ((claim_C4_field_immutability Point trivP).1 0 none 1 2 3).2.2.2.2.2⟩
  · exact fun hmem =>
      (claim_C4_field_immutability Point trivP).2.2.2 [] (Node.root 0 1 2 3 0) _ hmem

/-- C5: during expansion, a collision-free unclosed candidate is handed to
the open-set update; when a node at the same grid position is already open,
the open set keeps whichever of the two has lower priority — the existing
entry is erased and replaced exactly when the candidate's priority is
strictly lower — and when no node at that position is open, the candidate
is inserted. -/
theorem claim_C5_open_set_replacement (σ : Type) (P : AStarPlanner σ) :
    (∀ (openList : List Node) (cand m : Node),
      findByPosition openList cand = some m →
      m ∈ openList ∧ m.point = cand.point ∧
      (cand.priority < m.priority →
        updateOpen openList cand = openList.erase m ++ [cand]) ∧
      (¬ cand.priority < m.priority → updateOpen openList cand = openList)) ∧
    (∀ (openList : List Node) (cand : Node),
      findByPosition openList cand = none →
      (∀ m ∈ openList, m.point ≠ cand.point) ∧
      updateOpen openList cand = openList ++ [cand]) ∧
    (∀ (stop : Point) (next : Node) (s : SearchState) (neighbor : Point),
      (candidateNode P stop next neighbor).point ∉ s.closed →
      (candidateCheck P stop next neighbor).free = true →
      (expandOne P stop next s neighbor).openList =
        updateOpen s.openList
          ((candidateNode P stop next neighbor).setCollisionProb
            (candidateCheck P stop next neighbor).maxProb)) := by
  refine ⟨?_, ?_, ?_⟩
  · intro openList cand m hf
    refine ⟨List.mem_of_find?_eq_some hf, ?_, ?_, ?_⟩
    · have h2 := List.find?_some hf
      simpa using h2
    · intro hp
      unfold updateOpen
      rw [hf]
      exact if_pos hp
    · intro hp
      unfold updateOpen
      rw [hf]
      exact if_neg hp
  · intro openList cand hf
    constructor
    · intro m hm heq
      have h2 := List.find?_eq_none.mp hf m hm
      simp [heq] at h2
    · unfold updateOpen
      rw [hf]
  · intro stop next s neighbor hc hfree
    unfold expandOne
    rw [if_neg hc, if_pos hfree]

theorem claim_C5_witness :
    (Node.root 0 0 5 0 0 ∈ [Node.root 0 0 5 0 0] ∧
      (Node.root 0 0 5 0 0).point = (Node.root 0 9 3 0 0).point ∧
      ((Node.root 0 9 3 0 0).priority < (Node.root 0 0 5 0 0).priority →
        updateOpen [Node.root 0 0 5 0 0] (Node.root 0 9 3 0 0) =
          [Node.root 0 0 5 0 0].erase (Node.root 0 0 5 0 0) ++ [Node.root 0 9 3 0 0]) ∧
      (¬ (Node.root 0 9 3 0 0).priority < (Node.root 0 0 5 0 0).priority →
        updateOpen [Node.root 0 0 5 0 0] (Node.root 0 9 3 0 0) =
          [Node.root 0 0 5 0 0])) ∧
    ((∀ m ∈ ([] : List Node), m.point ≠ (Node.root 0 0 0 0 0).point) ∧
      updateOpen [] (Node.root 0 0 0 0 0) = [] ++ [Node.root 0 0 0 0 0]) :=
  ⟨(claim_C5_open_set_replacement Point trivP).1 [Node.root 0 0 5 0 0]
      (Node.root 0 9 3 0 0) (Node.root 0 0 5 0 0) (by with_unfolding_all decide),
    (claim_C5_open_set_replacement Point trivP).2.1 [] (Node.root 0 0 0 0 0) rfl⟩

set_option maxRecDepth 10000 in
theorem claim_C4_counterexample :
    ∃ n ∈ (PlanAux trivP ⟨10, 0, 0⟩ (fun _ => 0) 1 1
        (initState trivP 0 ⟨10, 0, 0⟩ 0)).2.openList,
      n.collision_prob ≠
        (Node.Create n.point n.parent n.time n.cost_to_come n.heuristic).collision_prob := by
  with_unfolding_all decide

theorem extractMin_mem :
    ∀ (l : List Node) (a : Node) (rest : List Node),
      extractMin l = some (a, rest) → a ∈ l ∧ ∀ x ∈ rest, x ∈ l := by
  intro l
  induction l with
  | nil => intro a rest h; simp [extractMin] at h
  | cons b l ih =>
    intro a rest h
    unfold extractMin at h
    split at h
    · simp only [Option.some.injEq, Prod.mk.injEq] at h
      obtain ⟨rfl, rfl⟩ := h
      exact ⟨List.mem_cons_self _ _, by intro x hx; simp at hx⟩
    · rename_i bb rest2 hrec
      have hm := ih bb rest2 hrec
      split at h
      · simp only [Option.some.injEq, Prod.mk.injEq] at h
        obtain ⟨rfl, rfl⟩ := h
        refine ⟨List.mem_cons_of_mem _ hm.1, ?_⟩
        intro x hx
        rcases List.mem_cons.mp hx with rfl | hx
        · exact List.mem_cons_self _ _
        · exact List.mem_cons_of_mem _ (hm.2 x hx)
      · simp only [Option.some.injEq, Prod.mk.injEq] at h
        obtain ⟨rfl, rfl⟩ := h
        exact ⟨List.mem_cons_self _ _, fun x hx => List.mem_cons_of_mem _ hx⟩

theorem wellTimed_setCollisionProb (n : Node) (p : ℚ) :
    (n.setCollisionProb p).wellTimed ↔ n.wellTimed := by
  cases n <;> exact Iff.rfl

theorem wellTimed_getD_parent (n : Node) (h : n.wellTimed) :
    (n.parent.getD n).wellTimed := by
  cases n with
  | root _ _ _ _ _ => exact h
  | child _ par _ _ _ _ => exact h.2

theorem backWalk_map_time_head (n : Node) :
    (n.backWalk.map Node.time).head? = some n.time := by
  cases n <;> rfl

theorem backWalk_times_antitone (n : Node) (h : n.wellTimed) :
    List.Chain' (fun a b => b ≤ a) (n.backWalk.map Node.time) := by
  induction n with
  | root p t c hh pr => simp [Node.backWalk]
  | child p par t c hh pr ih =>
    show List.Chain' (fun a b => b ≤ a) (t :: par.backWalk.map Node.time)
    refine List.chain'_cons'.mpr ⟨?_, ih h.2⟩
    intro b hb
    rw [backWalk_map_time_head] at hb
    cases hb
    exact h.1

theorem generateTrajectory_times_chain (P : AStarPlanner σ) (n : Node)
    (h : n.wellTimed) :
    List.Chain' (· ≤ ·) (GenerateTrajectory P n).times :=
  List.chain'_reverse.mpr (backWalk_times_antitone n h)

theorem candidateNode_wellTimed (P : AStarPlanner σ) (stop : Point)
    (next : Node) (neighbor : Point) (hb : ∀ a b, 0 ≤ P.bestTime a b)
    (hnext : next.wellTimed) :
    (candidateNode P stop next neighbor).wellTimed := by
  refine ⟨?_, hnext⟩
  have : 0 ≤ bestNeighTime P next neighbor := by
    unfold bestNeighTime
    split
    · norm_num [kStayPutTime]
    · exact hb _ _
  linarith

theorem expandOne_wellTimed (P : AStarPlanner σ) (stop : Point) (next : Node)
    (s : SearchState) (neighbor : Point) (hb : ∀ a b, 0 ≤ P.bestTime a b)
    (hnext : next.wellTimed) (hs : ∀ n ∈ s.openList, n.wellTimed) :
    ∀ n ∈ (expandOne P stop next s neighbor).openList, n.wellTimed := by
  intro n hn
  rcases expandOne_open_mem P stop next s neighbor n hn with h | h
  · exact hs n h
  · rw [h, wellTimed_setCollisionProb]
    exact candidateNode_wellTimed P stop next neighbor hb hnext

theorem foldl_expandOne_wellTimed (P : AStarPlanner σ) (stop : Point)
    (next : Node) (hb : ∀ a b, 0 ≤ P.bestTime a b) (hnext : next.wellTimed) :
    ∀ (neighbors : List Point) (s : SearchState),
      (∀ n ∈ s.openList, n.wellTimed) →
      ∀ n ∈ (neighbors.foldl (expandOne P stop next) s).openList, n.wellTimed := by
  intro neighbors
  induction neighbors with
  | nil => intro s hs; exact hs
  | cons a l ih =>
    intro s hs
    exact ih (expandOne P stop next s a)
      (expandOne_wellTimed P stop next s a hb hnext hs)

theorem planAux_found_wellTimed (P : AStarPlanner σ) (stop : Point)
    (clock : ℕ → ℚ) (budget : ℚ) (hb : ∀ a b, 0 ≤ P.bestTime a b) :
    ∀ (fuel : ℕ) (s : SearchState), (∀ n ∈ s.openList, n.wellTimed) →
      ∀ (t : Traj σ), (PlanAux P stop clock budget fuel s).1 = .found t →
      ∃ nd, nd.wellTimed ∧ t = GenerateTrajectory P nd := by
  intro fuel
  induction fuel with
  | zero => intro s hs t h; simp [PlanAux] at h
  | succ fuel ih =>
    intro s hs t h
    rw [PlanAux] at h
    split at h
    · simp at h
    · split at h
      · simp at h
      · rename_i next rest hmin
        have hnext : next.wellTimed := hs next (extractMin_mem _ _ _ hmin).1
        split at h
        · rename_i hg
          simp only [PlanOutcome.found.injEq] at h
          refine ⟨Node.Create stop (some (next.parent.getD next))
            ((next.parent.getD next).time +
              P.bestTime (next.parent.getD next).point stop)
            (ComputeCostToCome P (next.parent.getD next) stop
              (P.bestTime (next.parent.getD next).point stop)) 0, ?_, h.symm⟩
          refine ⟨?_, wellTimed_getD_parent next hnext⟩
          have := hb (next.parent.getD next).point stop
          linarith
        · refine ih _ ?_ t h
          intro n hn
          refine foldl_expandOne_wellTimed P stop next hb hnext _
            { s with openList := rest, closed := s.closed ++ [next.point] } ?_ n hn
          intro x hx
          exact hs x ((extractMin_mem _ _ _ hmin).2 x hx)

/-- C7: for every trajectory returned by a successful `Plan` call (under the
dynamics contract that best possible times are nonnegative), the time
sequence is monotonically non-decreasing, and the times and the lifted
states both come from the reversal of the terminal node's parent-chain walk
— a walk whose arrival times are non-decreasing along every parent
chain. -/
theorem claim_C7_trajectory_monotone (σ : Type) (P : AStarPlanner σ)
    (hb : ∀ a b, 0 ≤ P.bestTime a b) (start stop : Point)
    (start_time budget : ℚ) (clock : ℕ → ℚ) (fuel : ℕ) (t : Traj σ)
    (h : Plan P start stop start_time budget clock fuel = some t) :
    (∃ nd : Node, nd.wellTimed ∧
      t.times = (nd.backWalk.map Node.time).reverse ∧
      t.states = P.lift ((nd.backWalk.map Node.point).reverse)
        ((nd.backWalk.map Node.time).reverse)) ∧
    List.Chain' (· ≤ ·) t.times := by
  unfold Plan at h
  have hroot : ∀ n ∈ (initState P start stop start_time).openList, n.wellTimed := by
    intro n hn
    rcases List.mem_singleton.mp hn with rfl
    trivial
  cases hout : (PlanAux P stop clock budget fuel (initState P start stop start_time)).1 with
  | timedOut => rw [hout] at h; simp at h
  | exhausted => rw [hout] at h; simp at h
  | fuelOut => rw [hout] at h; simp at h
  | found t2 =>
    rw [hout] at h
    simp only [Option.some.injEq] at h
    subst h
    obtain ⟨nd, hwt, rfl⟩ :=
      planAux_found_wellTimed P stop clock budget hb fuel _ hroot t2 hout
    exact ⟨⟨nd, hwt, rfl, rfl⟩, generateTrajectory_times_chain P nd hwt⟩

theorem claim_C7_witness :
    (∃ nd : Node, nd.wellTimed ∧
      (Traj.mk [0, 1] [(0 : Point), 0] [7, 7] [7, 7]).times =
        (nd.backWalk.map Node.time).reverse ∧
      (Traj.mk [0, 1] [(0 : Point), 0] [7, 7] [7, 7]).states =
        trivP.lift ((nd.backWalk.map Node.point).reverse)
          ((nd.backWalk.map Node.time).reverse)) ∧
    List.Chain' (· ≤ ·) (Traj.mk [0, 1] [(0 : Point), 0] [7, 7] [7, 7]).times :=
  claim_C7_trajectory_monotone Point trivP
    (fun a b => by simp [trivP]) 0 0 0 1 (fun _ => 0) 1 _
    (by with_unfolding_all rfl)

theorem rrtPlanLoop_tree (P : RrtPlanner) (stop : Point) (clock : ℕ → ℚ)
    (budget : ℚ) :
    ∀ (fuel : ℕ) (tree : List RNode) (iter : ℕ) (res : List RNode × ℕ),
      RrtPlanLoop P stop clock budget fuel tree iter = some res →
      res.1 = tree ∧ ¬ clock res.2 < budget := by
  intro fuel
  induction fuel with
  | zero => intro tree iter res h; simp [RrtPlanLoop] at h
  | succ fuel ih =>
    intro tree iter res h
    rw [RrtPlanLoop] at h
    split at h
    · cases hnb : (P.knnSearch tree (P.sample iter) 1).head? with
      | none => simp [hnb] at h
      | some nb =>
        simp only [hnb, RrtCollisionCheck, Bool.false_eq_true, if_false] at h
        exact ih tree (iter + 1) res h
    · rename_i hclock
      simp only [Option.some.injEq] at h
      subst h
      exact ⟨rfl, hclock⟩

/-- C8: the reference `TimeVaryingRrt::CollisionCheck` rejects every
segment, so the sampling loop of `TimeVaryingRrt::Plan` never inserts a node
beyond the root and never commits to or returns a discovered path: for every
input whose endpoints pass the validity precondition, every completed `Plan`
run ends with the budget expired, the tree still containing only the root,
and the null no-trajectory result. -/
theorem claim_C8_rrt_always_rejects (σ : Type) :
    (∀ (start stop : Point) (start_time : ℚ),
      RrtCollisionCheck start stop start_time = false) ∧
    (∀ (P : RrtPlanner) (start stop : Point) (start_time : ℚ) (clock : ℕ → ℚ)
        (budget : ℚ) (fuel : ℕ) (res : Option (Traj σ) × List RNode × ℕ),
      P.isValid start P.incoming_value P.outgoing_value = true →
      P.isValid stop P.incoming_value P.outgoing_value = true →
      RrtPlan P start stop start_time clock budget fuel = some res →
      res.1 = none ∧ res.2.1 = [RNode.root start start_time] ∧
        ¬ clock res.2.2 < budget) := by
  refine ⟨fun _ _ _ => rfl, ?_⟩
  intro P start stop start_time clock budget fuel res h1 h2 h
  unfold RrtPlan at h
  rw [h1, h2] at h
  simp only [Bool.not_true, Bool.false_eq_true, if_false] at h
  split at h
  · exact absurd h (by simp)
  · rename_i tree iters hloop
    simp only [Option.some.injEq] at h
    subst h
    have h3 := rrtPlanLoop_tree P stop clock budget fuel _ _ _ hloop
    exact ⟨rfl, h3.1, h3.2⟩

theorem claim_C8_witness :
    ((none : Option (Traj Point)), [RNode.root 0 3], 0).1 = none ∧
    ((none : Option (Traj Point)), [RNode.root 0 3], 0).2.1 = [RNode.root (0 : Point) 3] ∧
    ¬ (fun _ : ℕ => (1 : ℚ)) ((none : Option (Traj Point)), [RNode.root 0 3], 0).2.2 < 0 :=
  (claim_C8_rrt_always_rejects Point).2 rrtP 0 ⟨4, 0, 0⟩ 3 (fun _ => 1) 0 1
    (none, [RNode.root 0 3], 0) rfl rfl (by with_unfolding_all rfl)

/-- C9: whenever `start` or `stop` is reported invalid by the environment
(checked without a time argument), `TimeVaryingRrt::Plan` returns the null
no-trajectory result immediately: the tree is never rooted and no sample is
drawn, a failure mode observably distinct from a timeout, which leaves the
rooted tree behind. -/
theorem claim_C9_rrt_invalid_endpoint (σ : Type) (P : RrtPlanner)
    (start stop : Point) (start_time : ℚ) (clock : ℕ → ℚ) (budget : ℚ)
    (fuel : ℕ)
    (h : P.isValid start P.incoming_value P.outgoing_value = false ∨
      P.isValid stop P.incoming_value P.outgoing_value = false) :
    RrtPlan (σ := σ) P start stop start_time clock budget fuel =
      some (none, [], 0) := by
  unfold RrtPlan
  rcases h with h | h
  · rw [h]
    rfl
  · cases hstart : P.isValid start P.incoming_value P.outgoing_value with
    | false => simp
    | true => simp [h]

theorem claim_C9_witness :
    RrtPlan (σ := Point) rrtBad 0 ⟨4, 0, 0⟩ 3 (fun _ => 0) 1 5 =
      some (none, [], 0) :=
  claim_C9_rrt_invalid_endpoint Point rrtBad 0 ⟨4, 0, 0⟩ 3 (fun _ => 0) 1 5
    (Or.inl rfl)

end MetaFastrack
